import Mathlib

/-!
Shallow embedding of the analytical core of the Dashboard backend
(`aiService`, `calculationService`, `notificationService`), with theorems
checking the natural-language specification against the code.

Numbers are modelled as rationals (`ℚ`).  A JavaScript numeric value is
falsy exactly when it is `0`, which is what the `jsOr` helper captures.
Division by zero, which JavaScript silently turns into `Infinity`/`NaN`,
is modelled as `none` at the one place where a claim is about an
unguarded division (`calculatePerformance`); everywhere else the claims
only compare both sides computed the same way, so plain `ℚ` division is
used.
-/

namespace Dashboard

/-- JavaScript `x || d` on a possibly-absent numeric parameter: the
default `d` is used when the parameter is absent or falsy (zero). -/
def jsOr (x : Option ℚ) (d : ℚ) : ℚ :=
  match x with
  | none => d
  | some v => if v = 0 then d else v

/-- JavaScript `station || line`: the station string when present and
non-empty, otherwise the line. -/
def stationOrLine (station : Option String) (line : String) : String :=
  match station with
  | none => line
  | some s => if s = "" then line else s

/-- A production/OEE sample (`models/OEE`), restricted to the fields the
analytical core reads. -/
structure OEERec where
  line : String
  station : Option String
  plannedProductionTime : ℚ
  downtime : ℚ
  idealCycleTime : ℚ
  actualCycleTime : ℚ
  totalUnits : ℚ
  goodUnits : ℚ
  quality : ℚ
  oee : ℚ
deriving Repr, DecidableEq

/-- A scrap/defect event (`models/Scrap`), restricted to the fields the
analytical core reads. -/
structure ScrapRec where
  line : String
  defectType : String
  quantity : ℚ
deriving Repr, DecidableEq

/-- A job card as read by `calculateLeadTime`: timestamps in epoch
milliseconds, `endTime` optional (the schema marks it non-required). -/
structure Job where
  startTime : Option ℚ
  endTime : Option ℚ
deriving Repr, DecidableEq

/-! ## CalculationService -/

namespace CalculationService

/-- `CalculationService.calculateOEE`. -/
def calculateOEE (availability performance quality : ℚ) : ℚ :=
  availability * performance * quality / 10000

/-- `CalculationService.calculateAvailability`. -/
def calculateAvailability (plannedTime downtime : ℚ) : ℚ :=
  if plannedTime = 0 then 0
  else (plannedTime - downtime) / plannedTime * 100

/-- `CalculationService.calculatePerformance`.  The source guards only
`idealCycleTime === 0` and `totalUnits === 0`; the division by
`actualCycleTime * totalUnits` is unguarded, so a zero denominator
(JavaScript `Infinity`) is modelled as `none`. -/
def calculatePerformance (idealCycleTime actualCycleTime totalUnits : ℚ) : Option ℚ :=
  if idealCycleTime = 0 ∨ totalUnits = 0 then some 0
  else
    let idealTime := idealCycleTime * totalUnits
    let actualTime := actualCycleTime * totalUnits
    if actualTime = 0 then none
    else some (idealTime / actualTime * 100)

/-- `CalculationService.calculateQuality`. -/
def calculateQuality (goodUnits totalUnits : ℚ) : ℚ :=
  if totalUnits = 0 then 0 else goodUnits / totalUnits * 100

/-- The duration `endTime - startTime` of a job when both timestamps are
present. -/
def durOpt (j : Job) : Option ℚ :=
  match j.endTime, j.startTime with
  | some e, some s => some (e - s)
  | _, _ => none

/-- `CalculationService.calculateLeadTime`, applied to the fetched list
of completed jobs: sums `endTime - startTime` over jobs having both
timestamps, then divides by the length of the whole list and converts
milliseconds to minutes. -/
def calculateLeadTime (jobs : List Job) : ℚ :=
  if jobs.length = 0 then 0
  else
    let totalLeadTime := jobs.foldl
      (fun sum j =>
        match j.endTime, j.startTime with
        | some e, some s => sum + (e - s)
        | _, _ => sum) 0
    totalLeadTime / jobs.length / 1000 / 60

/-- Written from the spec sentence for C4 (not from the source): the mean
of `endTime - startTime` in minutes over exactly the jobs that have both
timestamps, `0` when no such job exists. -/
def leadTimeSpecMean (jobs : List Job) : ℚ :=
  let durs := jobs.filterMap durOpt
  if durs.length = 0 then 0
  else durs.sum / durs.length / 1000 / 60

end CalculationService

/-! ## AIService: insight records and the three detectors -/

/-- Insight type tags (`AIInsight.type`). -/
inductive IType where
  | anomaly | opportunity | alert | recommendation
deriving Repr, DecidableEq

/-- Priority levels. -/
inductive Priority where
  | low | medium | high | critical
deriving Repr, DecidableEq

/-- The `impact` object of an insight. -/
structure Impact where
  timeSaved : Option ℚ := none
  costImpact : Option ℚ := none
  scrapReduction : Option ℚ := none
deriving Repr, DecidableEq

/-- An `AIInsight` record.  Numeric text fragments of descriptions are
rendered with `toString` on `ℚ`, standing in for JavaScript number
formatting; no claim depends on the rendered digits. -/
structure AIInsight where
  itype : IType
  title : String
  description : String
  priority : Priority
  impact : Impact := {}
  actionable : Bool
  actionItems : List String := []
deriving Repr, DecidableEq

namespace AIService

/-- The anomaly insight pushed by `detectCycleTimeAnomalies` for one
exceeding record. -/
def mkCycleAnomaly (r : OEERec) (avgCycleTime : ℚ) : AIInsight :=
  { itype := .anomaly
    title := "High Cycle Time at " ++ stationOrLine r.station r.line
    description := "Cycle time is " ++
      toString ((r.actualCycleTime - avgCycleTime) / avgCycleTime * 100) ++
      "% above average"
    priority := .high
    impact := { timeSaved := some (r.actualCycleTime - avgCycleTime) }
    actionable := true
    actionItems := ["Review workstation setup",
                    "Check for material flow issues",
                    "Verify operator training"] }

/-- Mean `actualCycleTime` over a fetched window. -/
def avgCycleTime (oeeData : List OEERec) : ℚ :=
  (oeeData.foldl (fun sum r => sum + r.actualCycleTime) 0) / oeeData.length

/-- `AIService.detectCycleTimeAnomalies`, applied to the fetched window
(most recent record first, as returned by the date-descending query).
Fewer than 10 records skips the check; otherwise each of the first 7
records whose `actualCycleTime` exceeds 1.2× the window mean pushes one
anomaly insight. -/
def detectCycleTimeAnomalies (oeeData : List OEERec) : List AIInsight :=
  if oeeData.length < 10 then []
  else
    let avg := avgCycleTime oeeData
    let recentData := oeeData.take 7
    recentData.foldl
      (fun insights r =>
        if r.actualCycleTime > avg * 1.2 then insights ++ [mkCycleAnomaly r avg]
        else insights) []

/-- One step of building a count map (a JavaScript object, keys in first
insertion order): add `q` to the entry at key `d`, creating it at the
end when absent. -/
def addTo : List (String × ℚ) → String → ℚ → List (String × ℚ)
  | [], d, q => [(d, q)]
  | p :: ps, d, q =>
      if p.1 = d then (p.1, p.2 + q) :: ps else p :: addTo ps d q

/-- Sum a quantity by a string key over a window, as the source's
`forEach` over a count object does. -/
def sumByKey (key : α → String) (qty : α → ℚ) (w : List α) : List (String × ℚ) :=
  w.foldl (fun acc r => addTo acc (key r) (qty r)) []

/-- The count recorded for key `d` (`counts[d] || 0`, 0 when absent). -/
def getCount : List (String × ℚ) → String → ℚ
  | [], _ => 0
  | p :: ps, d => if p.1 = d then p.2 else getCount ps d

/-- `sortedDefects[0]` after the stable sort by descending count: the
first entry attaining the maximum count, `none` on an empty map. -/
def topEntry : List (String × ℚ) → Option (String × ℚ)
  | [] => none
  | p :: ps => some (ps.foldl (fun best q => if q.2 > best.2 then q else best) p)

/-- The opportunity insight pushed by `detectScrapPatterns` for the top
defect type. -/
def mkScrapInsight (topDefect : String × ℚ) : AIInsight :=
  { itype := .opportunity
    title := "High Scrap Rate: " ++ topDefect.1
    description := toString topDefect.2 ++ " units scrapped due to " ++ topDefect.1
    priority := .high
    impact := { scrapReduction := some (topDefect.2 * 0.5) }
    actionable := true
    actionItems := ["Investigate root cause",
                    "Review quality control procedures",
                    "Consider tooling/material changes"] }

/-- `AIService.detectScrapPatterns`, applied to the fetched window:
group quantities by defect type, pick the highest-count type, emit one
opportunity insight when its total exceeds 10. -/
def detectScrapPatterns (scrapData : List ScrapRec) : List AIInsight :=
  if scrapData.length = 0 then []
  else
    let defectCounts := sumByKey (fun r => r.defectType) (fun r => r.quantity) scrapData
    match topEntry defectCounts with
    | none => []
    | some topDefect =>
        if topDefect.2 > 10 then [mkScrapInsight topDefect] else []

/-- The critical alert pushed by `detectDowntimePatterns` for one
high-downtime record. -/
def mkDowntimeInsight (r : OEERec) : AIInsight :=
  { itype := .alert
    title := "High Downtime at " ++ stationOrLine r.station r.line
    description := toString (r.downtime / r.plannedProductionTime * 100) ++
      "% downtime"
    priority := .critical
    actionable := true
    actionItems := ["Review downtime reasons",
                    "Check equipment maintenance schedule",
                    "Investigate root causes"] }

/-- `AIService.detectDowntimePatterns`, applied to the fetched window:
one critical alert per record whose downtime share of planned production
time exceeds 15%. -/
def detectDowntimePatterns (oeeData : List OEERec) : List AIInsight :=
  oeeData.foldl
    (fun insights r =>
      if r.downtime / r.plannedProductionTime * 100 > 15 then
        insights ++ [mkDowntimeInsight r]
      else insights) []

/-- The outcome of the outbound enrichment call in
`enhanceWithExternalAI`: the request throws (network error or non-2xx),
or it yields a body whose `enhancedInsights` field is absent, or a body
carrying a list. -/
inductive EnrichOutcome where
  | failed : EnrichOutcome
  | body : Option (List AIInsight) → EnrichOutcome
deriving Repr, DecidableEq

/-- `AIService.enhanceWithExternalAI`: a thrown request is caught and
the input list returned; `response.data.enhancedInsights || insights`
falls back to the input when the field is absent. -/
def enhanceWithExternalAI (insights : List AIInsight) (o : EnrichOutcome) : List AIInsight :=
  match o with
  | .failed => insights
  | .body none => insights
  | .body (some l) => l

/-- `AIService.generateInsights`, applied to the three fetched windows
(cycle-time/scrap checks read up to 100 records, the downtime check up
to 50, hence the separate windows): concatenate the three detectors'
outputs and, when an external service is configured, pass them through
enrichment. -/
def generateInsights (oeeW scrapOeeW : List OEERec) (scrapW : List ScrapRec)
    (configured : Bool) (o : EnrichOutcome) : List AIInsight :=
  let insights := detectCycleTimeAnomalies oeeW ++ detectScrapPatterns scrapW ++
    detectDowntimePatterns scrapOeeW
  if configured then enhanceWithExternalAI insights o else insights

/-- Parameters of `AIService.runSimulation`; absent optional parameters
are `none`. -/
structure SimParams where
  operators : Option ℚ := none
  shiftLength : Option ℚ := none
  cycleTimeAdjustment : Option ℚ := none
deriving Repr, DecidableEq

/-- The object returned by a successful simulation. -/
structure SimResult where
  predictedThroughput : ℚ
  predictedScrap : ℚ
  predictedOEE : ℚ
  costImpact : ℚ
deriving Repr, DecidableEq

/-- `AIService.runSimulation`, applied to the fetched baseline record
(`none` when the line has no history).  Mirrors the source's two
validations and the `|| 1` / `|| 8` defaulting of the falsy
parameters. -/
def runSimulation (baseOEE : Option OEERec) (params : SimParams) :
    Except String SimResult :=
  match baseOEE with
  | none => .error "No historical data found for simulation"
  | some b =>
    if b.idealCycleTime = 0 ∨ b.idealCycleTime ≤ 0 then
      .error "Invalid ideal cycle time in historical data. Cannot perform simulation."
    else
      let cycleTimeMultiplier := jsOr params.cycleTimeAdjustment 1
      let predictedCycleTime := b.idealCycleTime * cycleTimeMultiplier
      if predictedCycleTime ≤ 0 then
        .error "Invalid predicted cycle time. Cycle time must be greater than 0."
      else
        let shiftMinutes := (jsOr params.shiftLength 8) * 60
        let availableTime := shiftMinutes - b.downtime
        let predictedUnits := availableTime / predictedCycleTime
        let predictedScrap := predictedUnits * (1 - b.quality / 100)
        let predictedGoodUnits := predictedUnits - predictedScrap
        .ok { predictedThroughput := predictedGoodUnits
              predictedScrap := predictedScrap
              predictedOEE := b.oee * (1 / cycleTimeMultiplier)
              costImpact := predictedScrap * 50 }

end AIService

/-! ## NotificationService -/

/-- Notification type tags. -/
inductive NType where
  | alert | info | warning | success
deriving Repr, DecidableEq

/-- An in-memory `Notification` (timestamp as epoch milliseconds). -/
structure Notification where
  id : String
  ntype : NType
  title : String
  message : String
  priority : Priority
  timestamp : ℚ
  userId : Option String := none
  link : Option String := none
  read : Bool
deriving Repr, DecidableEq

/-- The per-user mailbox map (`Map<string, Notification[]>`), as an
insertion-ordered association list; a `Map` holds at most one entry per
key, so every operation touches the first (unique) matching entry. -/
abbrev Mailboxes := List (String × List Notification)

namespace NotificationService

/-- `userNotifications.find(n => n.id === id)` followed by the in-place
`notification.read = true`: set the read flag of the first notification
with the given id, leaving the list unchanged when none matches. -/
def setFirstRead (notificationId : String) : List Notification → List Notification
  | [] => []
  | n :: ns =>
      if n.id = notificationId then { n with read := true } :: ns
      else n :: setFirstRead notificationId ns

/-- `this.notifications.get(userId)`. -/
def getBox (m : Mailboxes) (userId : String) : Option (List Notification) :=
  match m.find? (fun p => p.1 = userId) with
  | some p => some p.2
  | none => none

/-- `NotificationService.markAsRead`: when the user has a mailbox, mark
the first notification with the given id in it read (the in-place
mutation of the list `Map.get` returned); otherwise do nothing. -/
def markAsRead : Mailboxes → String → String → Mailboxes
  | [], _, _ => []
  | p :: ps, userId, notificationId =>
      if p.1 = userId then (p.1, setFirstRead notificationId p.2) :: ps
      else p :: markAsRead ps userId notificationId

/-- Forget the read flag of a notification, for stating that `markAsRead`
changes nothing else. -/
def clearRead (n : Notification) : Notification :=
  { n with read := false }

/-- A `broadcastAlert` emission produced by the periodic monitor: the
role room and the notification payload fields that depend on the data
(`id`, `timestamp` and `read` are stamped at emit time and carry no
information from the records). -/
structure Broadcast where
  role : String
  ntype : NType
  title : String
  message : String
  priority : Priority
  link : String
deriving Repr, DecidableEq

/-- The supervisor warning broadcast for a line whose 24h scrap total
breached the monitor's threshold. -/
def mkScrapBroadcast (p : String × ℚ) : Broadcast :=
  { role := "supervisor"
    ntype := .warning
    title := "High Scrap Rate: " ++ p.1
    message := toString p.2 ++ " units scrapped in the last 24 hours"
    priority := .high
    link := "/waste-quality/scrap-overview?line=" ++ p.1 }

/-- The critical supervisor broadcast for a record whose downtime share
breached the monitor's threshold. -/
def mkDowntimeBroadcast (oee : OEERec) : Broadcast :=
  { role := "supervisor"
    ntype := .alert
    title := "High Downtime: " ++ stationOrLine oee.station oee.line
    message := toString (oee.downtime / oee.plannedProductionTime * 100) ++
      "% downtime detected"
    priority := .critical
    link := "/operational-performance/oee?station=" ++
      (match oee.station with | some s => s | none => "undefined") }

/-- The scrap half of `NotificationService.monitorAlerts`: group the
last-24h scrap quantities by line and broadcast a supervisor warning for
every line whose total exceeds 50 units. -/
def monitorScrapAlerts (recentScrap : List ScrapRec) : List Broadcast :=
  let scrapByLine := AIService.sumByKey (fun s => s.line) (fun s => s.quantity) recentScrap
  scrapByLine.foldl
    (fun alerts p => if p.2 > 50 then alerts ++ [mkScrapBroadcast p] else alerts) []

/-- The downtime half of `NotificationService.monitorAlerts`: broadcast
a critical supervisor alert for every last-24h OEE record whose downtime
share of planned production time exceeds 20%. -/
def monitorDowntimeAlerts (recentOEE : List OEERec) : List Broadcast :=
  recentOEE.foldl
    (fun alerts oee =>
      if oee.downtime / oee.plannedProductionTime * 100 > 20 then
        alerts ++ [mkDowntimeBroadcast oee]
      else alerts) []

/-- The supervisor broadcasts of one `monitorAlerts` run over the two
fetched 24h windows (the in-progress-job check sends direct user
notifications, not broadcasts, and is outside these claims). -/
def monitorAlerts (recentScrap : List ScrapRec) (recentOEE : List OEERec) :
    List Broadcast :=
  monitorScrapAlerts recentScrap ++ monitorDowntimeAlerts recentOEE

end NotificationService

/-! ## Helper lemmas -/

/-- A `forEach` that conditionally pushes one element per record builds
the image of the filtered list. -/
theorem foldl_pushIf (p : α → Prop) [DecidablePred p] (g : α → β)
    (l : List α) (acc : List β) :
    l.foldl (fun ins r => if p r then ins ++ [g r] else ins) acc =
      acc ++ (l.filter (fun r => decide (p r))).map g := by
  induction l generalizing acc with
  | nil => simp
  | cons x xs ih =>
      by_cases hx : p x
      · simp [List.foldl_cons, hx, ih]
      · simp [List.foldl_cons, hx, ih]

/-- Filtering with a stronger predicate keeps at most as many elements. -/
theorem length_filter_mono (f g : α → Bool) (h : ∀ a, f a = true → g a = true)
    (l : List α) : (l.filter f).length ≤ (l.filter g).length := by
  induction l with
  | nil => simp
  | cons x xs ih =>
      by_cases hf : f x = true
      · simp [hf, h x hf, Nat.succ_le_succ ih]
      · by_cases hg : g x = true
        · simp only [List.filter_cons, hf, hg, if_true, if_false, Bool.false_eq_true,
            List.length_cons]
          exact Nat.le_succ_of_le ih
        · simp only [List.filter_cons, hf, hg, Bool.false_eq_true, if_false]
          exact ih

/-! ## Claim theorems -/

/-- C10: `calculatePerformance` guards only `idealCycleTime == 0` and
`totalUnits == 0`, returning 0 for those; with both nonzero and
`actualCycleTime == 0` the division by `actualCycleTime * totalUnits`
is unguarded (modelled as `none`), so the function is well-defined only
under the unchecked precondition `actualCycleTime ≠ 0`, in which case it
returns `idealTime / actualTime * 100`. -/
theorem calculatePerformance_guards (i a t : ℚ) :
    ((i = 0 ∨ t = 0) → CalculationService.calculatePerformance i a t = some 0) ∧
    (i ≠ 0 → t ≠ 0 → a = 0 →
      CalculationService.calculatePerformance i a t = none) ∧
    (i ≠ 0 → t ≠ 0 → a ≠ 0 →
      CalculationService.calculatePerformance i a t = some (i * t / (a * t) * 100)) := by
  refine ⟨fun h => ?_, fun hi ht ha => ?_, fun hi ht ha => ?_⟩
  · simp [CalculationService.calculatePerformance, h]
  · have hcond : ¬(i = 0 ∨ t = 0) := by simp [hi, ht]
    simp [CalculationService.calculatePerformance, hcond, ha]
  · have hcond : ¬(i = 0 ∨ t = 0) := by simp [hi, ht]
    simp [CalculationService.calculatePerformance, hcond, mul_ne_zero ha ht]

/-- Witness for C10 at `idealCycleTime = 2`, `actualCycleTime = 0`,
`totalUnits = 5`: the division is reached with a zero divisor. -/
theorem calculatePerformance_guards_witness :
    CalculationService.calculatePerformance 2 0 5 = none :=
  (calculatePerformance_guards 2 0 5).2.1 (by norm_num) (by norm_num) rfl

/-- C3: for every baseline with positive ideal cycle time, every
positive multiplier and every nonzero shift length, `runSimulation`
returns predictedUnits = (shiftMinutes − downtime) / (ideal × multiplier)
with predictedScrap = predictedUnits × (1 − quality/100),
predictedThroughput = predictedUnits − predictedScrap,
predictedOEE = baseline oee × (1/multiplier), and
costImpact = predictedScrap × 50. -/
theorem runSimulation_formulas (b : OEERec) (s m : ℚ) (ops : Option ℚ)
    (hIdeal : 0 < b.idealCycleTime) (hm : 0 < m) (hs : s ≠ 0) :
    AIService.runSimulation (some b)
      { operators := ops, shiftLength := some s, cycleTimeAdjustment := some m } =
      .ok { predictedThroughput :=
              (s * 60 - b.downtime) / (b.idealCycleTime * m) -
                (s * 60 - b.downtime) / (b.idealCycleTime * m) * (1 - b.quality / 100)
            predictedScrap :=
              (s * 60 - b.downtime) / (b.idealCycleTime * m) * (1 - b.quality / 100)
            predictedOEE := b.oee * (1 / m)
            costImpact :=
              (s * 60 - b.downtime) / (b.idealCycleTime * m) * (1 - b.quality / 100) * 50 } := by
  have h1 : ¬(b.idealCycleTime = 0 ∨ b.idealCycleTime ≤ 0) := by
    rw [not_or]
    exact ⟨hIdeal.ne', not_le.mpr hIdeal⟩
  have h2 : ¬(b.idealCycleTime * m ≤ 0) := not_le.mpr (mul_pos hIdeal hm)
  simp [AIService.runSimulation, jsOr, h1, hm.ne', h2, hs]

/-- Witness for C3: baseline {idealCycleTime 2, downtime 30, quality 95,
oee 68} with shiftLength 8 and multiplier 1 yields predictedScrap 11.25,
predictedThroughput 213.75, predictedOEE 68 and costImpact 562.5. -/
theorem runSimulation_formulas_witness :
    AIService.runSimulation (some ⟨"L1", none, 480, 30, 2, 2, 100, 95, 95, 68⟩)
      { operators := none, shiftLength := some 8, cycleTimeAdjustment := some 1 } =
      .ok { predictedThroughput := 213.75
            predictedScrap := 11.25
            predictedOEE := 68
            costImpact := 562.5 } := by
  have h := runSimulation_formulas ⟨"L1", none, 480, 30, 2, 2, 100, 95, 95, 68⟩ 8 1 none
    (by norm_num) (by norm_num) (by norm_num)
  rw [h]
  norm_num

/-- C2 counterexample: with a valid baseline, passing
`cycleTimeAdjustment = 0` does not fail — the falsy value is replaced by
the default multiplier 1 and the simulation succeeds. -/
theorem runSimulation_zeroAdjustment_cex :
    AIService.runSimulation (some ⟨"L1", none, 480, 30, 2, 2, 100, 95, 95, 68⟩)
      { operators := none, shiftLength := some 8, cycleTimeAdjustment := some 0 } =
      .ok { predictedThroughput := 213.75
            predictedScrap := 11.25
            predictedOEE := 68
            costImpact := 562.5 } := by
  norm_num [AIService.runSimulation, jsOr]

/-- C2 amended: `runSimulation` errors exactly when the baseline's ideal
cycle time is ≤ 0 or the adjusted cycle time computed with the effective
multiplier (`cycleTimeAdjustment` if non-falsy, else the default 1) is
≤ 0; `cycleTimeAdjustment = 0` is replaced by 1, so it succeeds rather
than erroring; on every success path the cycle-time divisor is strictly
positive, so no division by zero occurs. -/
theorem runSimulation_error_iff (b : OEERec) (p : AIService.SimParams) :
    ((∃ e, AIService.runSimulation (some b) p = .error e) ↔
      b.idealCycleTime ≤ 0 ∨ b.idealCycleTime * jsOr p.cycleTimeAdjustment 1 ≤ 0) ∧
    (∀ r, AIService.runSimulation (some b) p = .ok r →
      0 < b.idealCycleTime * jsOr p.cycleTimeAdjustment 1) := by
  by_cases h1 : b.idealCycleTime = 0 ∨ b.idealCycleTime ≤ 0
  · have hle : b.idealCycleTime ≤ 0 := by
      rcases h1 with h | h
      · exact le_of_eq h
      · exact h
    constructor
    · simp [AIService.runSimulation, h1, hle]
    · intro r hr
      simp [AIService.runSimulation, h1] at hr
  · by_cases h2 : b.idealCycleTime * jsOr p.cycleTimeAdjustment 1 ≤ 0
    · constructor
      · simp [AIService.runSimulation, h1, h2]
      · intro r hr
        simp [AIService.runSimulation, h1, h2] at hr
    · rw [not_or] at h1
      constructor
      · simp [AIService.runSimulation, h1.1, h1.2, h2]
      · intro r _
        exact lt_of_not_le h2

/-- Witness for C2 amended: a baseline with ideal cycle time 0 makes the
simulation fail. -/
theorem runSimulation_error_iff_witness :
    ∃ e, AIService.runSimulation (some ⟨"L1", none, 480, 30, 0, 2, 100, 95, 95, 68⟩)
      { operators := none, shiftLength := none, cycleTimeAdjustment := none } =
        .error e :=
  (runSimulation_error_iff ⟨"L1", none, 480, 30, 0, 2, 100, 95, 95, 68⟩
    { operators := none, shiftLength := none, cycleTimeAdjustment := none }).1.mpr
    (Or.inl (by norm_num))

/-- C9: with an existing baseline of positive ideal cycle time, passing
`cycleTimeAdjustment = 0` gives the same result as passing 1, and
passing `shiftLength = 0` gives the same result as passing 8: falsy
parameters are replaced by their defaults. -/
theorem runSimulation_falsy_defaults (b : OEERec) (ops sl adj : Option ℚ)
    (_hIdeal : 0 < b.idealCycleTime) :
    AIService.runSimulation (some b)
        { operators := ops, shiftLength := sl, cycleTimeAdjustment := some 0 } =
      AIService.runSimulation (some b)
        { operators := ops, shiftLength := sl, cycleTimeAdjustment := some 1 } ∧
    AIService.runSimulation (some b)
        { operators := ops, shiftLength := some 0, cycleTimeAdjustment := adj } =
      AIService.runSimulation (some b)
        { operators := ops, shiftLength := some 8, cycleTimeAdjustment := adj } := by
  have hz : jsOr (some 0) (1 : ℚ) = jsOr (some 1) 1 := by norm_num [jsOr]
  have hs : jsOr (some 0) (8 : ℚ) = jsOr (some 8) 8 := by norm_num [jsOr]
  constructor
  · simp only [AIService.runSimulation, hz]
  · simp only [AIService.runSimulation, hs]

/-- Witness for C9 at the concrete baseline of the spec's simulation
example. -/
theorem runSimulation_falsy_defaults_witness :
    AIService.runSimulation (some ⟨"L1", none, 480, 30, 2, 2, 100, 95, 95, 68⟩)
        { operators := none, shiftLength := none, cycleTimeAdjustment := some 0 } =
      AIService.runSimulation (some ⟨"L1", none, 480, 30, 2, 2, 100, 95, 95, 68⟩)
        { operators := none, shiftLength := none, cycleTimeAdjustment := some 1 } ∧
    AIService.runSimulation (some ⟨"L1", none, 480, 30, 2, 2, 100, 95, 95, 68⟩)
        { operators := none, shiftLength := some 0, cycleTimeAdjustment := none } =
      AIService.runSimulation (some ⟨"L1", none, 480, 30, 2, 2, 100, 95, 95, 68⟩)
        { operators := none, shiftLength := some 8, cycleTimeAdjustment := none } :=
  runSimulation_falsy_defaults ⟨"L1", none, 480, 30, 2, 2, 100, 95, 95, 68⟩
    none none none (by norm_num)

/-- C7: whatever the outcome of the external enrichment call — a thrown
request (network error or non-2xx status) or a response body without the
`enhancedInsights` field — `generateInsights` returns the un-enhanced
concatenation of the three detectors' insights unchanged, and never
propagates an error. -/
theorem generateInsights_enrichment_fallback (oeeW dtW : List OEERec)
    (scrapW : List ScrapRec) (configured : Bool) (o : AIService.EnrichOutcome)
    (h : o = .failed ∨ o = .body none) :
    AIService.generateInsights oeeW dtW scrapW configured o =
      AIService.detectCycleTimeAnomalies oeeW ++ AIService.detectScrapPatterns scrapW ++
        AIService.detectDowntimePatterns dtW := by
  rcases h with h | h <;> subst h <;> cases configured <;>
    simp [AIService.generateInsights, AIService.enhanceWithExternalAI]

/-- Witness for C7: a failed enrichment call over empty windows with the
external service configured still returns the plain concatenation. -/
theorem generateInsights_enrichment_fallback_witness :
    AIService.generateInsights [] [] [] true .failed =
      AIService.detectCycleTimeAnomalies [] ++ AIService.detectScrapPatterns [] ++
        AIService.detectDowntimePatterns [] :=
  generateInsights_enrichment_fallback [] [] [] true .failed (Or.inl rfl)

/-- C4 counterexample: two completed jobs, one lasting 2 minutes and one
missing its end timestamp.  The code divides the summed durations by the
total number of jobs (here 2) and returns 1 minute, while the claimed
mean over exactly the jobs with both timestamps is 2 minutes. -/
theorem calculateLeadTime_cex :
    CalculationService.calculateLeadTime
        [{ startTime := some 0, endTime := some 120000 },
         { startTime := some 0, endTime := none }] = 1 ∧
    CalculationService.leadTimeSpecMean
        [{ startTime := some 0, endTime := some 120000 },
         { startTime := some 0, endTime := none }] = 2 ∧
    (1 : ℚ) ≠ 2 := by
  refine ⟨?_, ?_, by norm_num⟩
  · norm_num [CalculationService.calculateLeadTime]
  · norm_num [CalculationService.leadTimeSpecMean, CalculationService.durOpt,
      List.filterMap_cons]

/-- C4 amended: `calculateLeadTime` sums `endTime − startTime` over
exactly the jobs with both timestamps present, but divides by the number
of all fetched jobs (not only those with both timestamps) before
converting to minutes; it returns 0 when the fetched list is empty. -/
theorem calculateLeadTime_amended (jobs : List Job) :
    (jobs = [] → CalculationService.calculateLeadTime jobs = 0) ∧
    (jobs ≠ [] → CalculationService.calculateLeadTime jobs =
      (jobs.filterMap CalculationService.durOpt).sum / jobs.length / 1000 / 60) := by
  have hfold : ∀ (l : List Job) (acc : ℚ),
      l.foldl
        (fun sum j =>
          match j.endTime, j.startTime with
          | some e, some s => sum + (e - s)
          | _, _ => sum) acc =
        acc + (l.filterMap CalculationService.durOpt).sum := by
    intro l
    induction l with
    | nil => intro acc; simp
    | cons j js ih =>
        intro acc
        rcases j with ⟨st, en⟩
        cases st <;> cases en <;>
          simp [CalculationService.durOpt, ih, add_assoc]
  constructor
  · intro h
    subst h
    rfl
  · intro h
    have hlen : jobs.length ≠ 0 := by
      simpa [List.length_eq_zero] using h
    simp [CalculationService.calculateLeadTime, hlen, hfold]

/-- Witness for C4 amended on a two-job list with one missing end
timestamp. -/
theorem calculateLeadTime_amended_witness :
    CalculationService.calculateLeadTime
        [{ startTime := some 0, endTime := some 120000 },
         { startTime := some 0, endTime := none }] =
      ([{ startTime := some 0, endTime := some 120000 },
         { startTime := some 0, endTime := none }].filterMap
           CalculationService.durOpt).sum / 2 / 1000 / 60 :=
  (calculateLeadTime_amended
      [{ startTime := some 0, endTime := some 120000 },
       { startTime := some 0, endTime := none }]).2 (by simp)

/-- C5: the cycle-time anomaly check emits nothing when the window has
fewer than 10 records; otherwise it emits exactly one high-priority
anomaly insight for each of the 7 most-recent records whose
`actualCycleTime` exceeds 1.2 times the window mean, and none for the
other records. -/
theorem detectCycleTimeAnomalies_spec (w : List OEERec) :
    (w.length < 10 → AIService.detectCycleTimeAnomalies w = []) ∧
    (10 ≤ w.length →
      AIService.detectCycleTimeAnomalies w =
          ((w.take 7).filter
              (fun r => decide (AIService.avgCycleTime w * 1.2 < r.actualCycleTime))).map
            (fun r => AIService.mkCycleAnomaly r (AIService.avgCycleTime w)) ∧
        ∀ i ∈ AIService.detectCycleTimeAnomalies w,
          i.itype = .anomaly ∧ i.priority = .high) := by
  constructor
  · intro h
    simp [AIService.detectCycleTimeAnomalies, h]
  · intro h
    have hlt : ¬w.length < 10 := not_lt.mpr h
    have heq : AIService.detectCycleTimeAnomalies w =
        ((w.take 7).filter
            (fun r => decide (AIService.avgCycleTime w * 1.2 < r.actualCycleTime))).map
          (fun r => AIService.mkCycleAnomaly r (AIService.avgCycleTime w)) := by
      simp only [AIService.detectCycleTimeAnomalies, hlt, if_false]
      simpa using foldl_pushIf
        (fun r : OEERec => AIService.avgCycleTime w * 1.2 < r.actualCycleTime)
        (fun r => AIService.mkCycleAnomaly r (AIService.avgCycleTime w)) (w.take 7) []
    refine ⟨heq, ?_⟩
    intro i hi
    rw [heq] at hi
    simp only [List.mem_map] at hi
    obtain ⟨r, _, hr⟩ := hi
    subst hr
    exact ⟨rfl, rfl⟩

/-- Witness for C5 on the spec's example window: ten records with cycle
times [20, 10, …, 10] (most recent first, mean 11); only the record with
value 20 among the first 7 yields an insight. -/
theorem detectCycleTimeAnomalies_spec_witness :
    AIService.detectCycleTimeAnomalies
        (⟨"L1", none, 480, 30, 2, 20, 100, 95, 95, 68⟩ ::
          List.replicate 9 ⟨"L1", none, 480, 30, 2, 10, 100, 95, 95, 68⟩) =
      [AIService.mkCycleAnomaly ⟨"L1", none, 480, 30, 2, 20, 100, 95, 95, 68⟩ 11] := by
  have h := (detectCycleTimeAnomalies_spec
      (⟨"L1", none, 480, 30, 2, 20, 100, 95, 95, 68⟩ ::
        List.replicate 9 ⟨"L1", none, 480, 30, 2, 10, 100, 95, 95, 68⟩)).2
    (by simp)
  have havg : AIService.avgCycleTime
      (⟨"L1", none, 480, 30, 2, 20, 100, 95, 95, 68⟩ ::
        List.replicate 9 ⟨"L1", none, 480, 30, 2, 10, 100, 95, 95, 68⟩) = 11 := by
    norm_num [AIService.avgCycleTime, List.replicate]
  rw [h.1, havg]
  norm_num [List.replicate]

/-- Adding `q` at key `k` changes exactly the count at `k`. -/
theorem getCount_addTo (l : List (String × ℚ)) (k : String) (q : ℚ) (d : String) :
    AIService.getCount (AIService.addTo l k q) d =
      AIService.getCount l d + if k = d then q else 0 := by
  induction l with
  | nil =>
      by_cases h : k = d <;> simp [AIService.addTo, AIService.getCount, h]
  | cons p ps ih =>
      rcases p with ⟨pk, pv⟩
      by_cases hpk : pk = k
      · subst hpk
        by_cases hpd : pk = d
        · subst hpd
          simp [AIService.addTo, AIService.getCount]
        · simp [AIService.addTo, AIService.getCount, hpd]
      · by_cases hpd : pk = d
        · subst hpd
          have hkd : ¬k = pk := fun h => hpk h.symm
          simp [AIService.addTo, AIService.getCount, hpk, hkd]
        · simp [AIService.addTo, AIService.getCount, hpk, hpd, ih]

/-- The count map built by the grouping fold records, at each key, the
sum of the quantities of the records with that key. -/
theorem getCount_foldl_addTo (key : α → String) (qty : α → ℚ) (w : List α)
    (acc : List (String × ℚ)) (d : String) :
    AIService.getCount
        (w.foldl (fun a r => AIService.addTo a (key r) (qty r)) acc) d =
      AIService.getCount acc d +
        ((w.filter (fun r => decide (key r = d))).map qty).sum := by
  induction w generalizing acc with
  | nil => simp
  | cons r rs ih =>
      rw [List.foldl_cons, ih, getCount_addTo]
      by_cases h : key r = d
      · simp [h, List.filter_cons]
        ring
      · simp [h, List.filter_cons]

/-- `sumByKey` sums the quantity by key. -/
theorem getCount_sumByKey (key : α → String) (qty : α → ℚ) (w : List α)
    (d : String) :
    AIService.getCount (AIService.sumByKey key qty w) d =
      ((w.filter (fun r => decide (key r = d))).map qty).sum := by
  simpa [AIService.sumByKey, AIService.getCount] using
    getCount_foldl_addTo key qty w [] d

/-- `addTo` never returns an empty map. -/
theorem addTo_ne_nil (l : List (String × ℚ)) (k : String) (q : ℚ) :
    AIService.addTo l k q ≠ [] := by
  cases l with
  | nil => simp [AIService.addTo]
  | cons p ps =>
      by_cases h : p.1 = k <;> simp [AIService.addTo, h]

/-- The grouping fold preserves nonemptiness of the accumulator. -/
theorem foldl_addTo_ne_nil (key : α → String) (qty : α → ℚ) (w : List α)
    (acc : List (String × ℚ)) (h : acc ≠ []) :
    w.foldl (fun a r => AIService.addTo a (key r) (qty r)) acc ≠ [] := by
  induction w generalizing acc with
  | nil => exact h
  | cons r rs ih => exact ih _ (addTo_ne_nil acc (key r) (qty r))

/-- Grouping a nonempty window yields a nonempty count map. -/
theorem sumByKey_ne_nil (key : α → String) (qty : α → ℚ) (w : List α)
    (h : w ≠ []) : AIService.sumByKey key qty w ≠ [] := by
  cases w with
  | nil => exact absurd rfl h
  | cons r rs =>
      exact foldl_addTo_ne_nil key qty rs _ (addTo_ne_nil [] (key r) (qty r))

/-- The keys of `addTo l k q`: unchanged when `k` is present, `k`
appended otherwise. -/
theorem addTo_keys (l : List (String × ℚ)) (k : String) (q : ℚ) :
    (AIService.addTo l k q).map Prod.fst =
      if k ∈ l.map Prod.fst then l.map Prod.fst
      else l.map Prod.fst ++ [k] := by
  induction l with
  | nil => simp [AIService.addTo]
  | cons p ps ih =>
      by_cases h : p.1 = k
      · simp [AIService.addTo, h]
      · have hk : ¬k = p.1 := fun he => h he.symm
        by_cases hmem : k ∈ ps.map Prod.fst <;>
          simp [AIService.addTo, h, hk, hmem, ih]

/-- `addTo` preserves distinctness of the keys. -/
theorem addTo_keys_nodup (l : List (String × ℚ)) (k : String) (q : ℚ)
    (h : (l.map Prod.fst).Nodup) :
    ((AIService.addTo l k q).map Prod.fst).Nodup := by
  rw [addTo_keys]
  by_cases hmem : k ∈ l.map Prod.fst
  · simpa [hmem] using h
  · simp only [hmem, if_false]
    simp [List.nodup_append, h, hmem]

/-- The count map built by the grouping fold has distinct keys. -/
theorem sumByKey_keys_nodup (key : α → String) (qty : α → ℚ) (w : List α) :
    ((AIService.sumByKey key qty w).map Prod.fst).Nodup := by
  have hgen : ∀ acc : List (String × ℚ), (acc.map Prod.fst).Nodup →
      ((w.foldl (fun a r => AIService.addTo a (key r) (qty r)) acc).map
        Prod.fst).Nodup := by
    induction w with
    | nil => intro acc hacc; exact hacc
    | cons r rs ih =>
        intro acc hacc
        exact ih _ (addTo_keys_nodup acc (key r) (qty r) hacc)
  exact hgen [] (by simp)

/-- With distinct keys, membership determines the count. -/
theorem getCount_of_mem_nodup (l : List (String × ℚ))
    (h : (l.map Prod.fst).Nodup) (p : String × ℚ) (hp : p ∈ l) :
    AIService.getCount l p.1 = p.2 := by
  induction l with
  | nil => cases hp
  | cons q qs ih =>
      rw [List.map_cons, List.nodup_cons] at h
      rcases List.mem_cons.mp hp with h1 | h1
      · subst h1
        simp [AIService.getCount]
      · have hq : ¬q.1 = p.1 := by
          intro he
          exact h.1 (he ▸ List.mem_map_of_mem Prod.fst h1)
        simp [AIService.getCount, hq, ih h.2 h1]

/-- The running best of the selection fold is one of the candidates. -/
theorem foldl_best_mem (ps : List (String × ℚ)) (b : String × ℚ) :
    ps.foldl (fun best q => if q.2 > best.2 then q else best) b ∈ b :: ps := by
  induction ps generalizing b with
  | nil => simp
  | cons q qs ih =>
      rw [List.foldl_cons]
      rcases List.mem_cons.mp (ih (if q.2 > b.2 then q else b)) with h1 | h1
      · rw [h1]
        by_cases hq : q.2 > b.2
        · simp [hq]
        · simp [hq]
      · exact List.mem_cons_of_mem _ (List.mem_cons_of_mem _ h1)

/-- The running best of the selection fold dominates every candidate. -/
theorem foldl_best_ge (ps : List (String × ℚ)) (b : String × ℚ) :
    ∀ x ∈ b :: ps,
      x.2 ≤ (ps.foldl (fun best q => if q.2 > best.2 then q else best) b).2 := by
  induction ps generalizing b with
  | nil =>
      intro x hx
      rw [List.mem_singleton] at hx
      subst hx
      exact le_refl _
  | cons q qs ih =>
      intro x hx
      rw [List.foldl_cons]
      have hb : b.2 ≤ (if q.2 > b.2 then q else b).2 := by
        by_cases hq : q.2 > b.2
        · simp [hq]
          exact le_of_lt hq
        · simp [hq]
      have hq2 : q.2 ≤ (if q.2 > b.2 then q else b).2 := by
        by_cases hq : q.2 > b.2
        · simp [hq]
        · simp [hq]
          exact le_of_not_lt hq
      rcases List.mem_cons.mp hx with h1 | h1
      · subst h1
        exact le_trans hb (ih _ _ (List.mem_cons_self _ _))
      · rcases List.mem_cons.mp h1 with h2 | h2
        · subst h2
          exact le_trans hq2 (ih _ _ (List.mem_cons_self _ _))
        · exact ih _ _ (List.mem_cons_of_mem _ h2)

/-- `topEntry` returns a member of the count map that attains the
maximum count. -/
theorem topEntry_spec (l : List (String × ℚ)) (t : String × ℚ)
    (h : AIService.topEntry l = some t) :
    t ∈ l ∧ ∀ p ∈ l, p.2 ≤ t.2 := by
  cases l with
  | nil => cases h
  | cons p ps =>
      have ht : t = ps.foldl (fun best q => if q.2 > best.2 then q else best) p := by
        have := h
        simp only [AIService.topEntry, Option.some.injEq] at this
        exact this.symm
      subst ht
      exact ⟨foldl_best_mem ps p, foldl_best_ge ps p⟩

/-- C6: over a non-empty defect window, the scrap-concentration check
sums quantity by defect type, finds a type `t` attaining the maximum
total (its total being the sum of the quantities of its type, as for
every type), and emits exactly one high-priority opportunity insight for
it with `scrapReduction = 0.5 × total` when the total exceeds 10 units,
and no insight when the top total is ≤ 10. -/
theorem detectScrapPatterns_spec (w : List ScrapRec) (hw : w ≠ []) :
    ∃ t, AIService.topEntry
        (AIService.sumByKey (fun r => r.defectType) (fun r => r.quantity) w) =
          some t ∧
      t ∈ AIService.sumByKey (fun r => r.defectType) (fun r => r.quantity) w ∧
      (∀ p ∈ AIService.sumByKey (fun r => r.defectType) (fun r => r.quantity) w,
        p.2 ≤ t.2) ∧
      t.2 = ((w.filter (fun r => decide (r.defectType = t.1))).map
        (fun r => r.quantity)).sum ∧
      (∀ d, AIService.getCount
          (AIService.sumByKey (fun r => r.defectType) (fun r => r.quantity) w) d =
        ((w.filter (fun r => decide (r.defectType = d))).map
          (fun r => r.quantity)).sum) ∧
      (10 < t.2 → AIService.detectScrapPatterns w = [AIService.mkScrapInsight t]) ∧
      (t.2 ≤ 10 → AIService.detectScrapPatterns w = []) ∧
      (AIService.mkScrapInsight t).itype = .opportunity ∧
      (AIService.mkScrapInsight t).priority = .high ∧
      (AIService.mkScrapInsight t).impact.scrapReduction = some (t.2 * 0.5) ∧
      (AIService.mkScrapInsight t).title = "High Scrap Rate: " ++ t.1 := by
  have hne : AIService.sumByKey (fun r => r.defectType) (fun r => r.quantity) w ≠ [] :=
    sumByKey_ne_nil _ _ w hw
  obtain ⟨t, ht⟩ : ∃ t, AIService.topEntry
      (AIService.sumByKey (fun r => r.defectType) (fun r => r.quantity) w) = some t := by
    cases hc : AIService.sumByKey (fun r => r.defectType) (fun r => r.quantity) w with
    | nil => exact absurd hc hne
    | cons p ps => exact ⟨_, rfl⟩
  obtain ⟨hmem, hge⟩ := topEntry_spec _ t ht
  have hlen : ¬w.length = 0 := by
    simpa [List.length_eq_zero] using hw
  refine ⟨t, ht, hmem, hge, ?_, ?_, ?_, ?_, rfl, rfl, rfl, rfl⟩
  · rw [← getCount_sumByKey (fun r => r.defectType) (fun r => r.quantity) w t.1]
    exact (getCount_of_mem_nodup _ (sumByKey_keys_nodup _ _ w) t hmem).symm
  · intro d
    exact getCount_sumByKey (fun r => r.defectType) (fun r => r.quantity) w d
  · intro h10
    simp [AIService.detectScrapPatterns, hlen, ht, h10]
  · intro h10
    simp [AIService.detectScrapPatterns, hlen, ht, not_lt.mpr h10]

/-- Witness for C6 on the spec's example {A:5, B:12, C:3}: exactly one
opportunity insight, titled for type B, with scrapReduction 6. -/
theorem detectScrapPatterns_spec_witness :
    AIService.detectScrapPatterns
        [⟨"L1", "A", 5⟩, ⟨"L1", "B", 12⟩, ⟨"L1", "C", 3⟩] =
      [AIService.mkScrapInsight ("B", 12)] ∧
    (AIService.mkScrapInsight (("B", 12) : String × ℚ)).impact.scrapReduction =
      some 6 := by
  obtain ⟨t, ht, _, _, _, _, hfire, _, _, _, _, _⟩ := detectScrapPatterns_spec
      [⟨"L1", "A", 5⟩, ⟨"L1", "B", 12⟩, ⟨"L1", "C", 3⟩] (by simp)
  have hcomp : AIService.topEntry
      (AIService.sumByKey (fun r => r.defectType) (fun r => r.quantity)
        ([⟨"L1", "A", 5⟩, ⟨"L1", "B", 12⟩, ⟨"L1", "C", 3⟩] : List ScrapRec)) =
      some ("B", 12) := by
    norm_num [AIService.sumByKey, AIService.addTo, AIService.topEntry]
    simp
    norm_num
  rw [hcomp] at ht
  have hteq : t = ("B", (12 : ℚ)) := (Option.some.inj ht).symm
  subst hteq
  refine ⟨hfire (by norm_num), ?_⟩
  simp [AIService.mkScrapInsight]
  norm_num

/-- Marking the first match read twice is the same as once. -/
theorem setFirstRead_idem (nid : String) (l : List Notification) :
    NotificationService.setFirstRead nid (NotificationService.setFirstRead nid l) =
      NotificationService.setFirstRead nid l := by
  induction l with
  | nil => rfl
  | cons n ns ih =>
      by_cases h : n.id = nid
      · simp [NotificationService.setFirstRead, h]
      · simp [NotificationService.setFirstRead, h, ih]

/-- When every notification with the id is already read (in particular
when none carries the id), marking is a no-op. -/
theorem setFirstRead_noUnread (nid : String) (l : List Notification)
    (h : ∀ n ∈ l, n.id = nid → n.read = true) :
    NotificationService.setFirstRead nid l = l := by
  induction l with
  | nil => rfl
  | cons n ns ih =>
      by_cases hn : n.id = nid
      · have hr : n.read = true := h n (List.mem_cons_self _ _) hn
        have he : ({ n with read := true } : Notification) = n := by
          cases n
          simp_all
        rw [show NotificationService.setFirstRead nid (n :: ns) =
            (if n.id = nid then { n with read := true } :: ns
             else n :: NotificationService.setFirstRead nid ns) from rfl,
          if_pos hn, he]
      · simp [NotificationService.setFirstRead, hn,
          ih (fun x hx hid => h x (List.mem_cons_of_mem _ hx) hid)]

/-- Marking changes nothing but read flags. -/
theorem setFirstRead_clearRead (nid : String) (l : List Notification) :
    (NotificationService.setFirstRead nid l).map NotificationService.clearRead =
      l.map NotificationService.clearRead := by
  induction l with
  | nil => rfl
  | cons n ns ih =>
      by_cases h : n.id = nid
      · have hcl : NotificationService.clearRead { n with read := true } =
            NotificationService.clearRead n := by
          cases n
          rfl
        rw [show NotificationService.setFirstRead nid (n :: ns) =
            (if n.id = nid then { n with read := true } :: ns
             else n :: NotificationService.setFirstRead nid ns) from rfl,
          if_pos h, List.map_cons, List.map_cons, hcl]
      · simp [NotificationService.setFirstRead, h, ih]

/-- When some notification carries the id, after marking some
notification with that id is read. -/
theorem setFirstRead_found (nid : String) (l : List Notification)
    (h : ∃ n ∈ l, n.id = nid) :
    ∃ n ∈ NotificationService.setFirstRead nid l, n.id = nid ∧ n.read = true := by
  induction l with
  | nil =>
      obtain ⟨n, hn, _⟩ := h
      cases hn
  | cons x xs ih =>
      by_cases hx : x.id = nid
      · refine ⟨{ x with read := true }, ?_, by simpa using hx, rfl⟩
        simp [NotificationService.setFirstRead, hx]
      · obtain ⟨n, hn, hid⟩ := h
        rcases List.mem_cons.mp hn with h1 | h1
        · subst h1
          exact absurd hid hx
        · obtain ⟨n', hn', hprop⟩ := ih ⟨n, h1, hid⟩
          exact ⟨n', by simp [NotificationService.setFirstRead, hx, hn'], hprop⟩

/-- `markAsRead` rewrites the marked user's mailbox through
`setFirstRead` and leaves every other mailbox untouched. -/
theorem getBox_markAsRead (m : Mailboxes) (u nid : String) (l : List Notification)
    (h : NotificationService.getBox m u = some l) :
    NotificationService.getBox (NotificationService.markAsRead m u nid) u =
      some (NotificationService.setFirstRead nid l) := by
  induction m with
  | nil => cases h
  | cons p ps ih =>
      by_cases hp : p.1 = u
      · have hl : l = p.2 := by
          simp [NotificationService.getBox, List.find?, hp] at h
          exact h.symm
        subst hl
        simp [NotificationService.markAsRead, NotificationService.getBox,
          List.find?, hp]
      · have h' : NotificationService.getBox ps u = some l := by
          simpa [NotificationService.getBox, List.find?, hp] using h
        simpa [NotificationService.markAsRead, NotificationService.getBox,
          List.find?, hp] using ih h'

/-- When every notification with the id in the user's mailbox is
already read (in particular when the id is absent), `markAsRead` is a
no-op on the whole map. -/
theorem markAsRead_noUnread (m : Mailboxes) (u nid : String) :
    ∀ l, NotificationService.getBox m u = some l →
      (∀ n ∈ l, n.id = nid → n.read = true) →
      NotificationService.markAsRead m u nid = m := by
  induction m with
  | nil =>
      intro l hl
      cases hl
  | cons p ps ih =>
      rcases p with ⟨pk, pl⟩
      intro l hl hread
      by_cases hp : pk = u
      · subst hp
        simp [NotificationService.getBox, List.find?] at hl
        subst hl
        simp [NotificationService.markAsRead,
          setFirstRead_noUnread nid pl hread]
      · have h' : NotificationService.getBox ps u = some l := by
          simpa [NotificationService.getBox, List.find?, hp] using hl
        simp [NotificationService.markAsRead, hp, ih l h' hread]

/-- C8: `markAsRead` is total and idempotent; it is a no-op for an
unknown user, for an id not present in that user's mailbox, and for an
already-read notification; in general it changes nothing but read
flags, and when a notification with the id is present, one such
notification ends up read. -/
theorem markAsRead_contract (m : Mailboxes) (u nid : String) :
    NotificationService.markAsRead (NotificationService.markAsRead m u nid) u nid =
      NotificationService.markAsRead m u nid ∧
    (NotificationService.getBox m u = none →
      NotificationService.markAsRead m u nid = m) ∧
    (∀ l, NotificationService.getBox m u = some l →
      (∀ n ∈ l, n.id = nid → n.read = true) →
      NotificationService.markAsRead m u nid = m) ∧
    (NotificationService.markAsRead m u nid).map
        (fun p => (p.1, p.2.map NotificationService.clearRead)) =
      m.map (fun p => (p.1, p.2.map NotificationService.clearRead)) ∧
    (∀ l, NotificationService.getBox m u = some l → (∃ n ∈ l, n.id = nid) →
      ∃ l', NotificationService.getBox
          (NotificationService.markAsRead m u nid) u = some l' ∧
        ∃ n ∈ l', n.id = nid ∧ n.read = true) := by
  refine ⟨?_, ?_, ?_, ?_, ?_⟩
  · induction m with
    | nil => rfl
    | cons p ps ih =>
        by_cases hp : p.1 = u
        · simp [NotificationService.markAsRead, hp, setFirstRead_idem]
        · simp [NotificationService.markAsRead, hp, ih]
  · intro h
    induction m with
    | nil => rfl
    | cons p ps ih =>
        by_cases hp : p.1 = u
        · exfalso
          simp [NotificationService.getBox, List.find?, hp] at h
        · have h' : NotificationService.getBox ps u = none := by
            simpa [NotificationService.getBox, List.find?, hp] using h
          simp [NotificationService.markAsRead, hp, ih h']
  · exact markAsRead_noUnread m u nid
  · induction m with
    | nil => rfl
    | cons p ps ih =>
        by_cases hp : p.1 = u
        · simp [NotificationService.markAsRead, hp, setFirstRead_clearRead]
        · simp [NotificationService.markAsRead, hp, ih]
  · intro l hl hfound
    exact ⟨NotificationService.setFirstRead nid l, getBox_markAsRead m u nid l hl,
      setFirstRead_found nid l hfound⟩

/-- Witness for C8: a one-user mailbox; marking an unknown user's id is
a no-op, and marking the present id "a" leaves it read. -/
theorem markAsRead_contract_witness :
    NotificationService.markAsRead
        [("u1", [{ id := "a", ntype := .info, title := "t", message := "m",
                   priority := .low, timestamp := 0, userId := none,
                   link := none, read := false }])] "u2" "a" =
      [("u1", [{ id := "a", ntype := .info, title := "t", message := "m",
                 priority := .low, timestamp := 0, userId := none,
                 link := none, read := false }])] ∧
    (∃ l', NotificationService.getBox
        (NotificationService.markAsRead
          [("u1", [{ id := "a", ntype := .info, title := "t", message := "m",
                     priority := .low, timestamp := 0, userId := none,
                     link := none, read := false }])] "u1" "a") "u1" = some l' ∧
      ∃ n ∈ l', n.id = "a" ∧ n.read = true) := by
  constructor
  · exact (markAsRead_contract
      [("u1", [{ id := "a", ntype := .info, title := "t", message := "m",
                 priority := .low, timestamp := 0, userId := none,
                 link := none, read := false }])] "u2" "a").2.1
      (by simp [NotificationService.getBox, List.find?])
  · exact (markAsRead_contract
      [("u1", [{ id := "a", ntype := .info, title := "t", message := "m",
                 priority := .low, timestamp := 0, userId := none,
                 link := none, read := false }])] "u1" "a").2.2.2.2
      [{ id := "a", ntype := .info, title := "t", message := "m",
         priority := .low, timestamp := 0, userId := none,
         link := none, read := false }]
      (by simp [NotificationService.getBox, List.find?])
      ⟨_, List.mem_singleton_self _, rfl⟩

/-- The downtime detector emits exactly one alert per record above the
15% threshold. -/
theorem detectDowntimePatterns_eq (w : List OEERec) :
    AIService.detectDowntimePatterns w =
      (w.filter
          (fun r => decide (15 < r.downtime / r.plannedProductionTime * 100))).map
        AIService.mkDowntimeInsight := by
  simpa [AIService.detectDowntimePatterns] using
    foldl_pushIf (fun r : OEERec => 15 < r.downtime / r.plannedProductionTime * 100)
      AIService.mkDowntimeInsight w []

/-- The periodic monitor emits exactly one downtime broadcast per record
above the 20% threshold. -/
theorem monitorDowntimeAlerts_eq (w : List OEERec) :
    NotificationService.monitorDowntimeAlerts w =
      (w.filter
          (fun r => decide (20 < r.downtime / r.plannedProductionTime * 100))).map
        NotificationService.mkDowntimeBroadcast := by
  simpa [NotificationService.monitorDowntimeAlerts] using
    foldl_pushIf (fun r : OEERec => 20 < r.downtime / r.plannedProductionTime * 100)
      NotificationService.mkDowntimeBroadcast w []

/-- The periodic monitor emits exactly one scrap broadcast per line whose
24h total exceeds 50 units. -/
theorem monitorScrapAlerts_eq (w : List ScrapRec) :
    NotificationService.monitorScrapAlerts w =
      ((AIService.sumByKey (fun s => s.line) (fun s => s.quantity) w).filter
          (fun p => decide (50 < p.2))).map
        NotificationService.mkScrapBroadcast := by
  simpa [NotificationService.monitorScrapAlerts] using
    foldl_pushIf (fun p : String × ℚ => 50 < p.2)
      NotificationService.mkScrapBroadcast
      (AIService.sumByKey (fun s => s.line) (fun s => s.quantity) w) []

/-- C1 counterexample: a production record with 80 minutes of downtime
in 480 planned minutes (16.7%) triggers the Insight Engine downtime
check but not the periodic monitor, and a single defect type with 12
scrapped units triggers the Insight Engine scrap-concentration check
but not the periodic monitor — the thresholds are not the same. -/
theorem monitorAlerts_vs_insights_cex :
    AIService.detectDowntimePatterns
        [⟨"L1", none, 480, 80, 2, 2, 100, 95, 95, 68⟩] ≠ [] ∧
    NotificationService.monitorDowntimeAlerts
        [⟨"L1", none, 480, 80, 2, 2, 100, 95, 95, 68⟩] = [] ∧
    AIService.detectScrapPatterns [⟨"L1", "B", 12⟩] ≠ [] ∧
    NotificationService.monitorScrapAlerts [⟨"L1", "B", 12⟩] = [] := by
  refine ⟨?_, ?_, ?_, ?_⟩
  · rw [detectDowntimePatterns_eq]
    norm_num
  · rw [monitorDowntimeAlerts_eq]
    norm_num
  · norm_num [AIService.detectScrapPatterns, AIService.sumByKey, AIService.addTo,
      AIService.topEntry]
  · rw [monitorScrapAlerts_eq]
    norm_num [AIService.sumByKey, AIService.addTo]

/-- C1 amended: the periodic monitor applies stricter, different
thresholds than the Insight Engine.  Its downtime check fires on
downtime/plannedProductionTime > 20% where the Insight Engine fires on
> 15%, so the monitor's downtime alerts are at most as many as the
Insight Engine's over the same window; its scrap check is keyed by line
with threshold 50 units, firing exactly when some line total exceeds 50,
while the Insight Engine's scrap check fires exactly when the top
defect-type total exceeds 10. -/
theorem monitorAlerts_vs_insights (wOEE : List OEERec) (wScrap : List ScrapRec) :
    (NotificationService.monitorDowntimeAlerts wOEE).length ≤
      (AIService.detectDowntimePatterns wOEE).length ∧
    ((NotificationService.monitorScrapAlerts wScrap ≠ []) ↔
      ∃ p ∈ AIService.sumByKey (fun s => s.line) (fun s => s.quantity) wScrap,
        50 < p.2) ∧
    ((AIService.detectScrapPatterns wScrap ≠ []) ↔
      ∃ t, AIService.topEntry (AIService.sumByKey (fun r => r.defectType)
          (fun r => r.quantity) wScrap) = some t ∧ 10 < t.2) := by
  refine ⟨?_, ?_, ?_⟩
  · rw [detectDowntimePatterns_eq, monitorDowntimeAlerts_eq,
      List.length_map, List.length_map]
    refine length_filter_mono _ _ (fun r h => ?_) wOEE
    simp only [decide_eq_true_eq] at h ⊢
    linarith
  · rw [monitorScrapAlerts_eq]
    simp [List.filter_eq_nil_iff]
  · by_cases hw : wScrap = []
    · subst hw
      simp [AIService.detectScrapPatterns, AIService.sumByKey, AIService.topEntry]
    · have hlen : ¬wScrap.length = 0 := by
        simpa [List.length_eq_zero] using hw
      have hne : AIService.sumByKey (fun r => r.defectType)
          (fun r => r.quantity) wScrap ≠ [] := sumByKey_ne_nil _ _ wScrap hw
      obtain ⟨t, ht⟩ : ∃ t, AIService.topEntry (AIService.sumByKey
          (fun r => r.defectType) (fun r => r.quantity) wScrap) = some t := by
        cases hc : AIService.sumByKey (fun r => r.defectType)
            (fun r => r.quantity) wScrap with
        | nil => exact absurd hc hne
        | cons p ps => exact ⟨_, rfl⟩
      by_cases h10 : 10 < t.2
      · simp [AIService.detectScrapPatterns, hlen, ht, h10]
      · simp [AIService.detectScrapPatterns, hlen, ht, h10]

end Dashboard
